import Mathlib

/-!
Verification of the datadog grok filter engine
(`src/lib/datadog/grok/src/grok_filter.rs`).

The file embeds the two operations of the engine:

* the filter resolver, `TryFrom<&Function> for GrokFilter` (`tryFrom` below);
* the filter applicator, `apply_filter`.

Modelling conventions:

* Rust `f64` is modelled by `F64`: an exact rational together with the
  special values `inf`/`-inf`/`nan`.  Rounding of finite results is not
  modelled (finite arithmetic is exact), but the NaN-propagation and
  special-value structure of IEEE multiplication is: a product is NaN
  exactly when an operand is NaN or a zero meets an infinity, which is
  what the NaN-handling claims depend on.
* Rust byte strings (`Vec<u8>` / `Bytes`) are lists of natural numbers
  (each < 256 for meaningful inputs); `String::from_utf8_lossy` is
  `utf8Lossy`, a total decoder emitting U+FFFD for invalid bytes
  (replacement is per invalid byte).
* `str::parse::<i64>` and `str::parse::<f64>` (standard library,
  outside this repository) are modelled by `parseI64` / `parseF64`
  following their documented grammars; `as i64` on a float is the
  saturating cast `f64AsI64`.
* `str::to_lowercase` / `str::to_uppercase` are modelled on the ASCII
  fragment of the Unicode case tables (non-ASCII characters map to
  themselves); the full tables live in Rust's standard library, outside
  this repository.
* The rendering `Value::to_string()` and the conversions `From<f64>`,
  `From<i64>`, `From<serde_json::Value>` for `Value` come from the
  `vrl_compiler` and `serde_json` crates, which are outside `src/`;
  they are modelled from the spec (a stable deterministic
  stringification, and structural conversions).
* A Rust panic (out-of-bounds indexing, `expect`) is an explicit
  `panic` outcome of the result types `ResolveResult` / `RunResult`.
-/

namespace Grok

/-- Model of Rust `f64`: exact rationals plus the IEEE special values. -/
inductive F64 where
  | finite (q : ℚ)
  | inf (neg : Bool)
  | nan
  deriving DecidableEq, Repr

/-- Rational multiplication written with the smart constructor `mkRat`
so that it evaluates by kernel reduction (the library multiplication is
sealed against unfolding); it agrees with it, see `qMul_eq_mul`. -/
def qMul (a b : ℚ) : ℚ := mkRat (a.num * b.num) (a.den * b.den)

namespace F64

/-- NaN test, `f64::is_nan`. -/
def isNan : F64 → Bool
  | .nan => true
  | _ => false

/-- The cast `i as f64` (modelled exactly; rounding of huge integers is
not modelled). -/
def ofInt (i : ℤ) : F64 := .finite (mkRat i 1)

/-- IEEE multiplication on the model: NaN propagates, and a zero times
an infinity is NaN; finite times finite is exact. -/
def mul : F64 → F64 → F64
  | .nan, _ => .nan
  | _, .nan => .nan
  | .inf s, .inf t => .inf (xor s t)
  | .inf s, .finite q => if q = 0 then .nan else .inf (xor s (decide (q < 0)))
  | .finite q, .inf t => if q = 0 then .nan else .inf (xor (decide (q < 0)) t)
  | .finite q, .finite r => .finite (qMul q r)

end F64

/-- Truncation of a rational toward zero (the fractional part is
discarded), as in a float-to-int cast. -/
def ratTrunc (q : ℚ) : ℤ := Int.tdiv q.num q.den

/-- The saturating cast `f as i64` of Rust: NaN goes to 0, values beyond
the `i64` range clamp to `i64::MIN` / `i64::MAX`. -/
def f64AsI64 : F64 → ℤ
  | .nan => 0
  | .inf neg => if neg then -(2 ^ 63) else 2 ^ 63 - 1
  | .finite q => max (-(2 ^ 63)) (min (2 ^ 63 - 1) (ratTrunc q))

/-- ASCII lowercasing of one character; non-ASCII characters are fixed
(the full Unicode table lives in Rust's standard library). -/
def charLower (c : Char) : Char :=
  if 65 ≤ c.toNat ∧ c.toNat ≤ 90 then Char.ofNat (c.toNat + 32) else c

/-- ASCII uppercasing of one character; non-ASCII characters are fixed. -/
def charUpper (c : Char) : Char :=
  if 97 ≤ c.toNat ∧ c.toNat ≤ 122 then Char.ofNat (c.toNat - 32) else c

/-- UTF-8 encoding of one scalar value (1 to 4 bytes). -/
def encodeChar (c : Char) : List ℕ :=
  let n := c.toNat
  if n < 0x80 then [n]
  else if n < 0x800 then [0xC0 + n / 64, 0x80 + n % 64]
  else if n < 0x10000 then
    [0xE0 + n / 4096, 0x80 + n / 64 % 64, 0x80 + n % 64]
  else
    [0xF0 + n / 262144, 0x80 + n / 4096 % 64, 0x80 + n / 64 % 64, 0x80 + n % 64]

/-- UTF-8 encoding of a character list. -/
def utf8Encode (cs : List Char) : List ℕ := (cs.map encodeChar).flatten

/-- Is a byte a UTF-8 continuation byte? -/
def isCont (b : ℕ) : Prop := 0x80 ≤ b ∧ b < 0xC0

instance (b : ℕ) : Decidable (isCont b) := by unfold isCont; infer_instance

/-- One step of UTF-8 decoding: given the first byte and the rest,
return the decoded (or replacement) character and the remaining input. -/
def utf8Step (b0 : ℕ) (r : List ℕ) : Char × List ℕ :=
  if b0 < 0x80 then (Char.ofNat b0, r)
  else if 0xC2 ≤ b0 ∧ b0 < 0xE0 then
    match r with
    | b1 :: r1 =>
      if isCont b1 then (Char.ofNat ((b0 - 0xC0) * 64 + (b1 - 0x80)), r1)
      else (Char.ofNat 0xFFFD, r)
    | [] => (Char.ofNat 0xFFFD, [])
  else if 0xE0 ≤ b0 ∧ b0 < 0xF0 then
    match r with
    | b1 :: b2 :: r2 =>
      if isCont b1 ∧ isCont b2 then
        let n := (b0 - 0xE0) * 4096 + (b1 - 0x80) * 64 + (b2 - 0x80)
        if 0x800 ≤ n ∧ ¬(0xD800 ≤ n ∧ n < 0xE000) then (Char.ofNat n, r2)
        else (Char.ofNat 0xFFFD, r)
      else (Char.ofNat 0xFFFD, r)
    | _ => (Char.ofNat 0xFFFD, r)
  else if 0xF0 ≤ b0 ∧ b0 < 0xF5 then
    match r with
    | b1 :: b2 :: b3 :: r3 =>
      if isCont b1 ∧ isCont b2 ∧ isCont b3 then
        let n := (b0 - 0xF0) * 262144 + (b1 - 0x80) * 4096 + (b2 - 0x80) * 64 + (b3 - 0x80)
        if 0x10000 ≤ n ∧ n < 0x110000 then (Char.ofNat n, r3)
        else (Char.ofNat 0xFFFD, r)
      else (Char.ofNat 0xFFFD, r)
    | _ => (Char.ofNat 0xFFFD, r)
  else (Char.ofNat 0xFFFD, r)

/-- Fuelled UTF-8 decoding loop; each step consumes at least the first
byte, so any fuel at least the length of the input suffices. -/
def utf8LossyGo : ℕ → List ℕ → List Char
  | 0, _ => []
  | _ + 1, [] => []
  | fuel + 1, b0 :: r =>
    let s := utf8Step b0 r
    s.1 :: utf8LossyGo fuel s.2

/-- Model of `String::from_utf8_lossy`: total UTF-8 decoding, emitting
U+FFFD for each byte of an invalid sequence (Rust replaces maximal
invalid subparts; only the decoding of valid sequences matters here). -/
def utf8Lossy (l : List ℕ) : List Char := utf8LossyGo l.length l

/-- Is a character an ASCII decimal digit? -/
def isDigitChar (c : Char) : Bool := decide (48 ≤ c.toNat ∧ c.toNat ≤ 57)

/-- Numeric value of one ASCII digit. -/
def digitVal (c : Char) : ℕ := c.toNat - 48

/-- Value of a base-10 digit string. -/
def natOfDigits (ds : List Char) : ℕ := ds.foldl (fun a c => a * 10 + digitVal c) 0

/-- Split a leading sign from a character list, as Rust numeric parsing
does: returns (is-negative, rest). -/
def splitSign : List Char → Bool × List Char
  | [] => (false, [])
  | c :: rest =>
    if c = '-' then (true, rest)
    else if c = '+' then (false, rest)
    else (false, c :: rest)

/-- Modelled from the spec: `str::parse::<i64>` of the Rust standard
library (outside `src/`) — the strict base-10 signed 64-bit grammar: an
optional sign, one or more ASCII digits, nothing else, with the value
required to fit in `i64`. -/
def parseI64 (cs : List Char) : Option ℤ :=
  let s := splitSign cs
  let ds := s.2
  if ds.isEmpty then none
  else if ds.all isDigitChar then
    let v : ℤ := if s.1 then -(natOfDigits ds : ℤ) else (natOfDigits ds : ℤ)
    if -(2 ^ 63) ≤ v ∧ v ≤ 2 ^ 63 - 1 then some v else none
  else none

/-- Parse the exponent part of a float literal: either nothing, or
`e`/`E`, an optional sign and one or more digits consuming the whole
remainder. -/
def parseExp : List Char → Option ℤ
  | [] => some 0
  | c :: rest =>
    if c = 'e' ∨ c = 'E' then
      let s := splitSign rest
      if s.2.isEmpty then none
      else if s.2.all isDigitChar then
        some (if s.1 then -(natOfDigits s.2 : ℤ) else (natOfDigits s.2 : ℤ))
      else none
    else none

/-- The rational `10 ^ e` for an integer exponent, built from core
`Rat` primitives so that it evaluates by kernel reduction. -/
def pow10Q (e : ℤ) : ℚ :=
  if 0 ≤ e then mkRat (10 ^ e.toNat) 1 else mkRat 1 (10 ^ (-e).toNat)

/-- Assemble a finite float value from sign, integral digits, fraction
digits and exponent (exact rational arithmetic; IEEE rounding and
overflow to infinity are not modelled). -/
def mkF64 (neg : Bool) (d1 d2 : List Char) (e : ℤ) : F64 :=
  let m : ℚ := mkRat (natOfDigits (d1 ++ d2) : ℤ) (10 ^ d2.length)
  let v : ℚ := qMul m (pow10Q e)
  .finite (if neg then Rat.neg v else v)

/-- Modelled from the spec: `str::parse::<f64>` of the Rust standard
library (outside `src/`) — optional sign, then `inf`/`infinity`/`nan`
(ASCII case-insensitive) or a decimal literal with at least one
mantissa digit and an optional exponent, consuming the whole input. -/
def parseF64 (cs : List Char) : Option F64 :=
  let s := splitSign cs
  let neg := s.1
  let r0 := s.2
  let low := r0.map charLower
  if low = ['i', 'n', 'f'] ∨ low = ['i', 'n', 'f', 'i', 'n', 'i', 't', 'y'] then
    some (.inf neg)
  else if low = ['n', 'a', 'n'] then some .nan
  else
    let p := r0.span isDigitChar
    let d1 := p.1
    match p.2 with
    | [] => if d1.isEmpty then none else (parseExp []).map (mkF64 neg d1 [])
    | c :: rest =>
      if c = '.' then
        let q := rest.span isDigitChar
        if d1.isEmpty ∧ q.1.isEmpty then none
        else (parseExp q.2).map (mkF64 neg d1 q.1)
      else if d1.isEmpty then none
      else (parseExp (c :: rest)).map (mkF64 neg d1 [])

/-- Model of the `vrl_compiler::Value` scalar type used by the filters
(a dynamically typed tagged union); the `Timestamp` and `Regex`
variants of the crate, which no filter accepts, are omitted. The crate
stores floats as `NotNan<f64>`. -/
inductive Value where
  | bytes (b : List ℕ)
  | integer (i : ℤ)
  | float (f : F64)
  | boolean (b : Bool)
  | null
  | array (vs : List Value)
  | object (fields : List (String × Value))

/-- Is the value a byte string? -/
def Value.isBytes : Value → Bool
  | .bytes _ => true
  | _ => false

/-- Is the value numeric (integer or float), the shapes the `Scale`
filter accepts? -/
def Value.isNumeric : Value → Bool
  | .integer _ => true
  | .float _ => true
  | _ => false

/-- Rendering of a float value for error messages (deterministic model
of the external crate's Display). -/
def F64.render : F64 → String
  | .nan => "NaN"
  | .inf neg => if neg then "-inf" else "inf"
  | .finite q => toString q

/-- Modelled from the spec: `Value::to_string()`, the stable
deterministic stringification of a value used in error messages and by
`NullIf` (the `vrl_compiler` crate is outside `src/`); a byte string
renders as its lossily decoded text, containers render as fixed
placeholders since no claim observes them. -/
def Value.toString : Value → String
  | .bytes b => String.mk (utf8Lossy b)
  | .integer i => ToString.toString i
  | .float f => f.render
  | .boolean b => if b then "true" else "false"
  | .null => "null"
  | .array _ => "<array>"
  | .object _ => "<object>"

/-- The filter type of `grok_filter.rs` (the resolved, immutable form
of one filter invocation). -/
inductive GrokFilter where
  | Integer
  | IntegerExt
  | Number
  | NumberExt
  | NullIf (nullValue : String)
  | Scale (scaleFactor : F64)
  | Lowercase
  | Uppercase
  | Json
  deriving DecidableEq, Repr

/-- The strum-derived `Display` of `GrokFilter`: the bare variant name. -/
def GrokFilter.toString : GrokFilter → String
  | .Integer => "Integer"
  | .IntegerExt => "IntegerExt"
  | .Number => "Number"
  | .NumberExt => "NumberExt"
  | .NullIf _ => "NullIf"
  | .Scale _ => "Scale"
  | .Lowercase => "Lowercase"
  | .Uppercase => "Uppercase"
  | .Json => "Json"

/-- `parse_grok_rules::Error`, the static (compile-time) error type. -/
inductive GrokStaticError where
  | UnknownFilter (name : String)
  | InvalidFunctionArguments (name : String)
  deriving DecidableEq, Repr

/-- `parse_grok::Error`, the runtime error type raised by the
applicator. -/
inductive GrokRuntimeError where
  | FailedToApplyFilter (filterName : String) (valueRendering : String)

/-- Modelled from the spec: the `ast::Function` node (the AST module is
outside `src/`) — a function call with a name and an optional ordered
argument list. -/
inductive FunctionArgument where
  | arg (v : Value)
  | expr

/-- Modelled from the spec: a parsed filter invocation. -/
structure GFunction where
  name : String
  args : Option (List FunctionArgument)

/-- Outcome of the resolver, with an explicit case for a Rust panic. -/
inductive ResolveResult where
  | ok (f : GrokFilter)
  | err (e : GrokStaticError)
  | panic (msg : String)
  deriving DecidableEq

/-- Embedding of `TryFrom<&Function> for GrokFilter::try_from`.  The
`nullIf` arm indexes `args[0]` inside the `and_then` closure without an
emptiness check, so an empty argument vector is a panic. -/
def tryFrom (f : GFunction) : ResolveResult :=
  match f.name with
  | "scale" =>
    match f.args with
    | some (a0 :: _) =>
      match a0 with
      | .arg (.integer i) => .ok (.Scale (F64.ofInt i))
      | .arg (.float fl) => .ok (.Scale fl)
      | _ => .err (.InvalidFunctionArguments f.name)
    | _ => .err (.InvalidFunctionArguments f.name)
  | "integer" => .ok .Integer
  | "integerExt" => .ok .IntegerExt
  | "number" => .ok .Number
  | "numberExt" => .ok .NumberExt
  | "lowercase" => .ok .Lowercase
  | "uppercase" => .ok .Uppercase
  | "json" => .ok .Json
  | "nullIf" =>
    match f.args with
    | none => .err (.InvalidFunctionArguments f.name)
    | some [] => .panic "index out of bounds"
    | some (a0 :: _) =>
      match a0 with
      | .arg v => .ok (.NullIf v.toString)
      | _ => .err (.InvalidFunctionArguments f.name)
  | _ => .err (.UnknownFilter f.name)

/-- Outcome of the applicator, with an explicit case for a Rust panic
(the `expect("NaN")` / `NotNan` multiplication in the `Scale` arm). -/
inductive RunResult where
  | ok (v : Value)
  | err (e : GrokRuntimeError)
  | panic (msg : String)

/-- Is the outcome a panic? -/
def RunResult.isPanic : RunResult → Bool
  | .panic _ => true
  | _ => false

/-- Is the outcome a runtime error? -/
def RunResult.isErr : RunResult → Bool
  | .err _ => true
  | _ => false

/-- Skip JSON whitespace. -/
def skipWs (cs : List Char) : List Char :=
  cs.dropWhile (fun c => c = ' ' ∨ c = '\t' ∨ c = '\n' ∨ c = '\r')

/-- Hex digit value, if any. -/
def hexVal (c : Char) : Option ℕ :=
  if 48 ≤ c.toNat ∧ c.toNat ≤ 57 then some (c.toNat - 48)
  else if 97 ≤ c.toNat ∧ c.toNat ≤ 102 then some (c.toNat - 87)
  else if 65 ≤ c.toNat ∧ c.toNat ≤ 70 then some (c.toNat - 55)
  else none

/-- One JSON escape character. -/
def jsonEsc (c : Char) : Option Char :=
  if c = '"' ∨ c = '\\' ∨ c = '/' then some c
  else if c = 'b' then some (Char.ofNat 8)
  else if c = 'f' then some (Char.ofNat 12)
  else if c = 'n' then some (Char.ofNat 10)
  else if c = 'r' then some (Char.ofNat 13)
  else if c = 't' then some (Char.ofNat 9)
  else none

/-- Body of a JSON string after the opening quote: content and rest
(surrogate pairs are not recombined in the model). -/
def jsonStringGo : ℕ → List Char → Option (List Char × List Char)
  | 0, _ => none
  | _ + 1, [] => none
  | fuel + 1, c :: rest =>
    if c = '"' then some ([], rest)
    else if c = '\\' then
      match rest with
      | [] => none
      | e :: rest2 =>
        if e = 'u' then
          match rest2 with
          | h1 :: h2 :: h3 :: h4 :: rest3 =>
            match hexVal h1, hexVal h2, hexVal h3, hexVal h4 with
            | some v1, some v2, some v3, some v4 =>
              (jsonStringGo fuel rest3).map
                (fun p => (Char.ofNat (v1 * 4096 + v2 * 256 + v3 * 16 + v4) :: p.1, p.2))
            | _, _, _, _ => none
          | _ => none
        else
          match jsonEsc e with
          | some ch => (jsonStringGo fuel rest2).map (fun p => (ch :: p.1, p.2))
          | none => none
    else (jsonStringGo fuel rest).map (fun p => (c :: p.1, p.2))

/-- A JSON string literal starting after the opening quote. -/
def jsonStr (cs : List Char) : Option (List Char × List Char) :=
  jsonStringGo (cs.length + 1) cs

/-- Characters a JSON number token may contain. -/
def isNumChar (c : Char) : Bool :=
  isDigitChar c || c = '-' || c = '+' || c = '.' || c = 'e' || c = 'E'

/-- A JSON number token, mapped to the value model the way
`vrl_compiler` maps `serde_json` numbers: an integral token in `i64`
range becomes an integer, everything else a float (the model is
slightly lenient about the token grammar; no claim depends on it). -/
def jsonNum (cs : List Char) : Option (Value × List Char) :=
  let p := cs.span isNumChar
  if p.1.isEmpty then none
  else
    match parseI64 p.1 with
    | some i => some (.integer i, p.2)
    | none =>
      match parseF64 p.1 with
      | some f => some (.float f, p.2)
      | none => none

/-- Does the input start with the given characters? Returns the rest. -/
def stripChars : List Char → List Char → Option (List Char)
  | [], cs => some cs
  | p :: ps, c :: cs => if c = p then stripChars ps cs else none
  | _ :: _, [] => none

mutual

/-- Modelled from the spec: one JSON value, in the shape
`serde_json::from_slice` followed by the `From<serde_json::Value>`
conversion into the value model produces (both crates are outside
`src/`): objects and arrays map structurally, strings become byte
strings, numbers integers or floats. -/
def jsonValue : ℕ → List Char → Option (Value × List Char)
  | 0, _ => none
  | fuel + 1, cs =>
    match skipWs cs with
    | [] => none
    | c :: rest =>
      if c = 'n' then (stripChars ['u', 'l', 'l'] rest).map (fun r => (.null, r))
      else if c = 't' then (stripChars ['r', 'u', 'e'] rest).map (fun r => (.boolean true, r))
      else if c = 'f' then
        (stripChars ['a', 'l', 's', 'e'] rest).map (fun r => (.boolean false, r))
      else if c = '"' then
        (jsonStr rest).map (fun p => (.bytes (utf8Encode p.1), p.2))
      else if c = '[' then jsonArray fuel rest
      else if c = Char.ofNat 123 then jsonObject fuel rest
      else jsonNum (c :: rest)

/-- The elements of a JSON array, after the opening bracket. -/
def jsonArray : ℕ → List Char → Option (Value × List Char)
  | 0, _ => none
  | fuel + 1, cs =>
    match skipWs cs with
    | c :: rest =>
      if c = ']' then some (.array [], rest)
      else
        match jsonValue fuel cs with
        | some (v, r1) =>
          (jsonArrayTail fuel r1).map (fun p => (.array (v :: p.1), p.2))
        | none => none
    | [] => none

/-- The remaining elements of a JSON array: a comma-separated tail. -/
def jsonArrayTail : ℕ → List Char → Option (List Value × List Char)
  | 0, _ => none
  | fuel + 1, cs =>
    match skipWs cs with
    | c :: rest =>
      if c = ']' then some ([], rest)
      else if c = ',' then
        match jsonValue fuel rest with
        | some (v, r1) => (jsonArrayTail fuel r1).map (fun p => (v :: p.1, p.2))
        | none => none
      else none
    | [] => none

/-- The fields of a JSON object, after the opening brace. -/
def jsonObject : ℕ → List Char → Option (Value × List Char)
  | 0, _ => none
  | fuel + 1, cs =>
    match skipWs cs with
    | c :: rest =>
      if c = Char.ofNat 125 then some (.object [], rest)
      else
        match jsonMember fuel (c :: rest) with
        | some (kv, r1) =>
          (jsonObjectTail fuel r1).map (fun p => (.object (kv :: p.1), p.2))
        | none => none
    | [] => none

/-- The remaining fields of a JSON object: a comma-separated tail. -/
def jsonObjectTail : ℕ → List Char → Option (List (String × Value) × List Char)
  | 0, _ => none
  | fuel + 1, cs =>
    match skipWs cs with
    | c :: rest =>
      if c = Char.ofNat 125 then some ([], rest)
      else if c = ',' then
        match jsonMember fuel rest with
        | some (kv, r1) => (jsonObjectTail fuel r1).map (fun p => (kv :: p.1, p.2))
        | none => none
      else none
    | [] => none

/-- One `"key": value` member of a JSON object. -/
def jsonMember : ℕ → List Char → Option ((String × Value) × List Char)
  | 0, _ => none
  | fuel + 1, cs =>
    match skipWs cs with
    | c :: rest =>
      if c = '"' then
        match jsonStr rest with
        | some (key, r1) =>
          match skipWs r1 with
          | c2 :: r2 =>
            if c2 = ':' then
              (jsonValue fuel r2).map (fun p => ((String.mk key, p.1), p.2))
            else none
          | [] => none
        | none => none
      else none
    | [] => none

end

/-- Modelled from the spec: `serde_json::from_slice` on a byte string,
converted into the value model; the whole input (up to trailing
whitespace) must be one JSON document. -/
def jsonParse (b : List ℕ) : Option Value :=
  let cs := utf8Lossy b
  match jsonValue (cs.length + 1) cs with
  | some (v, rest) => if (skipWs rest).isEmpty then some v else none
  | none => none

/-- Embedding of `apply_filter` from `grok_filter.rs`: apply a resolved
filter to one value. -/
def apply_filter (value : Value) (filter : GrokFilter) : RunResult :=
  match filter with
  | .Integer =>
    match value with
    | .bytes v =>
      match parseI64 (utf8Lossy v) with
      | some i => .ok (.integer i)
      | none => .err (.FailedToApplyFilter filter.toString value.toString)
    | _ => .err (.FailedToApplyFilter filter.toString value.toString)
  | .IntegerExt =>
    match value with
    | .bytes v =>
      match parseF64 (utf8Lossy v) with
      | some f => .ok (.integer (f64AsI64 f))
      | none => .err (.FailedToApplyFilter filter.toString value.toString)
    | _ => .err (.FailedToApplyFilter filter.toString value.toString)
  | .Number =>
    match value with
    | .bytes v =>
      match parseF64 (utf8Lossy v) with
      | some f => .ok (.float f)
      | none => .err (.FailedToApplyFilter filter.toString value.toString)
    | _ => .err (.FailedToApplyFilter filter.toString value.toString)
  | .NumberExt =>
    match value with
    | .bytes v =>
      match parseF64 (utf8Lossy v) with
      | some f => .ok (.float f)
      | none => .err (.FailedToApplyFilter filter.toString value.toString)
    | _ => .err (.FailedToApplyFilter filter.toString value.toString)
  | .Scale scaleFactor =>
    match value with
    | .integer v =>
      let p := F64.mul (F64.ofInt v) scaleFactor
      if p.isNan then .panic "NaN" else .ok (.float p)
    | .float v =>
      let p := F64.mul v scaleFactor
      if p.isNan then .panic "NaN" else .ok (.float p)
    | _ => .err (.FailedToApplyFilter filter.toString value.toString)
  | .Lowercase =>
    match value with
    | .bytes b => .ok (.bytes (utf8Encode ((utf8Lossy b).map charLower)))
    | _ => .err (.FailedToApplyFilter filter.toString value.toString)
  | .Uppercase =>
    match value with
    | .bytes b => .ok (.bytes (utf8Encode ((utf8Lossy b).map charUpper)))
    | _ => .err (.FailedToApplyFilter filter.toString value.toString)
  | .Json =>
    match value with
    | .bytes b =>
      match jsonParse b with
      | some v => .ok v
      | none => .err (.FailedToApplyFilter filter.toString value.toString)
    | _ => .err (.FailedToApplyFilter filter.toString value.toString)
  | .NullIf nullValue =>
    match value with
    | .bytes _ =>
      if value.toString = nullValue then .ok .null else .ok value
    | _ => .err (.FailedToApplyFilter filter.toString value.toString)

/-- A convenience for stating concrete test inputs: the UTF-8 bytes of
a string literal. -/
def strBytes (s : String) : List ℕ := utf8Encode s.data

/-- Replace the filter-name component of a runtime error, leaving
everything else unchanged: the relation "identical up to the filter
name embedded in the error". -/
def renameErr (nm : String) : RunResult → RunResult
  | .err (.FailedToApplyFilter _ v) => .err (.FailedToApplyFilter nm v)
  | r => r

/-! ### Supporting lemmas -/

theorem qMul_eq_mul (a b : ℚ) : qMul a b = a * b := by
  rw [qMul, Rat.mul_def, Rat.normalize_eq_mkRat]

theorem char_toNat_ofNat {n : ℕ} (h : n.isValidChar) : (Char.ofNat n).toNat = n := by
  simp only [Char.ofNat, dif_pos h, Char.ofNatAux, Char.toNat]
  rfl

theorem char_ofNat_toNat (c : Char) : Char.ofNat c.toNat = c := by
  have h : c.toNat.isValidChar := c.valid
  apply Char.eq_of_val_eq
  simp only [Char.ofNat, dif_pos h, Char.ofNatAux]
  apply UInt32.eq_of_toBitVec_eq
  apply BitVec.eq_of_toNat_eq
  rfl

theorem charLower_idem (c : Char) : charLower (charLower c) = charLower c := by
  unfold charLower
  by_cases h : 65 ≤ c.toNat ∧ c.toNat ≤ 90
  · rw [if_pos h]
    have hv : (c.toNat + 32).isValidChar := Or.inl (by omega)
    rw [if_neg]
    rw [char_toNat_ofNat hv]
    omega
  · rw [if_neg h, if_neg h]

theorem charUpper_idem (c : Char) : charUpper (charUpper c) = charUpper c := by
  unfold charUpper
  by_cases h : 97 ≤ c.toNat ∧ c.toNat ≤ 122
  · rw [if_pos h]
    have hv : (c.toNat - 32).isValidChar := Or.inl (by omega)
    rw [if_neg]
    rw [char_toNat_ofNat hv]
    omega
  · rw [if_neg h, if_neg h]

theorem utf8LossyGo_cons (fuel : ℕ) (b : ℕ) (r : List ℕ) :
    utf8LossyGo (fuel + 1) (b :: r) =
      (utf8Step b r).1 :: utf8LossyGo fuel (utf8Step b r).2 := rfl

theorem utf8LossyGo_nil (fuel : ℕ) : utf8LossyGo fuel [] = [] := by
  cases fuel <;> rfl

theorem utf8Step_encode (c : Char) (l : List ℕ) :
    utf8Step (encodeChar c).headI ((encodeChar c).tail ++ l) = (c, l) := by
  have hv : c.toNat < 0xd800 ∨ (0xdfff < c.toNat ∧ c.toNat < 0x110000) := c.valid
  have hofn : Char.ofNat c.toNat = c := char_ofNat_toNat c
  by_cases h1 : c.toNat < 0x80
  · simp only [encodeChar, if_pos h1, List.headI, List.tail, List.nil_append]
    rw [utf8Step.eq_def, if_pos h1, hofn]
  · by_cases h2 : c.toNat < 0x800
    · simp only [encodeChar, if_pos h2, if_neg h1, List.headI, List.tail, List.cons_append,
        List.nil_append]
      rw [utf8Step.eq_def, if_neg (by omega), if_pos (by omega : 0xC2 ≤ 0xC0 + c.toNat / 64 ∧
        0xC0 + c.toNat / 64 < 0xE0)]
      dsimp only
      rw [if_pos (show isCont (0x80 + c.toNat % 64) from ⟨by omega, by omega⟩)]
      have hval : (0xC0 + c.toNat / 64 - 0xC0) * 64 + (0x80 + c.toNat % 64 - 0x80) =
          c.toNat := by omega
      rw [hval, hofn]
    · by_cases h3 : c.toNat < 0x10000
      · simp only [encodeChar, if_pos h3, if_neg h1, if_neg h2, List.headI, List.tail,
          List.cons_append, List.nil_append]
        rw [utf8Step.eq_def, if_neg (by omega), if_neg (by omega), if_pos
          (by omega : 0xE0 ≤ 0xE0 + c.toNat / 4096 ∧ 0xE0 + c.toNat / 4096 < 0xF0)]
        dsimp only
        rw [if_pos (show isCont (0x80 + c.toNat / 64 % 64) ∧ isCont (0x80 + c.toNat % 64) from
          ⟨⟨by omega, by omega⟩, ⟨by omega, by omega⟩⟩)]
        have hval : (0xE0 + c.toNat / 4096 - 0xE0) * 4096 +
            (0x80 + c.toNat / 64 % 64 - 0x80) * 64 + (0x80 + c.toNat % 64 - 0x80) =
            c.toNat := by omega
        rw [hval]
        rw [if_pos (by omega : 0x800 ≤ c.toNat ∧ ¬(0xD800 ≤ c.toNat ∧ c.toNat < 0xE000))]
        rw [hofn]
      · simp only [encodeChar, if_neg h1, if_neg h2, if_neg h3, List.headI, List.tail,
          List.cons_append, List.nil_append]
        rw [utf8Step.eq_def, if_neg (by omega), if_neg (by omega), if_neg (by omega), if_pos
          (by omega : 0xF0 ≤ 0xF0 + c.toNat / 262144 ∧ 0xF0 + c.toNat / 262144 < 0xF5)]
        dsimp only
        rw [if_pos (show isCont (0x80 + c.toNat / 4096 % 64) ∧
            isCont (0x80 + c.toNat / 64 % 64) ∧ isCont (0x80 + c.toNat % 64) from
          ⟨⟨by omega, by omega⟩, ⟨by omega, by omega⟩, ⟨by omega, by omega⟩⟩)]
        have hval : (0xF0 + c.toNat / 262144 - 0xF0) * 262144 +
            (0x80 + c.toNat / 4096 % 64 - 0x80) * 4096 +
            (0x80 + c.toNat / 64 % 64 - 0x80) * 64 + (0x80 + c.toNat % 64 - 0x80) =
            c.toNat := by omega
        rw [hval]
        rw [if_pos (by omega : 0x10000 ≤ c.toNat ∧ c.toNat < 0x110000)]
        rw [hofn]

theorem encodeChar_eq_cons (c : Char) :
    encodeChar c = (encodeChar c).headI :: (encodeChar c).tail := by
  unfold encodeChar
  dsimp only
  split
  · rfl
  · split
    · rfl
    · split <;> rfl

theorem lossyGo_encode (c : Char) (l : List ℕ) (fuel : ℕ) :
    utf8LossyGo (fuel + 1) (encodeChar c ++ l) = c :: utf8LossyGo fuel l := by
  conv_lhs => rw [encodeChar_eq_cons c, List.cons_append]
  rw [utf8LossyGo_cons, utf8Step_encode]

theorem utf8Encode_cons (c : Char) (cs : List Char) :
    utf8Encode (c :: cs) = encodeChar c ++ utf8Encode cs := by
  simp [utf8Encode]

theorem lossyGo_utf8Encode (cs : List Char) :
    ∀ fuel, cs.length ≤ fuel → utf8LossyGo fuel (utf8Encode cs) = cs := by
  induction cs with
  | nil => intro fuel _; rw [show utf8Encode [] = [] from rfl, utf8LossyGo_nil]
  | cons c rest ih =>
    intro fuel hfuel
    match fuel, hfuel with
    | f + 1, hfuel =>
      rw [utf8Encode_cons, lossyGo_encode, ih f (by simpa using hfuel)]

theorem length_le_length_utf8Encode (cs : List Char) :
    cs.length ≤ (utf8Encode cs).length := by
  induction cs with
  | nil => simp
  | cons c rest ih =>
    rw [utf8Encode_cons, List.length_append, List.length_cons]
    have h1 : 1 ≤ (encodeChar c).length := by
      unfold encodeChar
      dsimp only
      split
      · simp
      · split
        · simp
        · split <;> simp
    omega

/-- Decoding inverts encoding: `from_utf8_lossy` of the UTF-8 bytes of
a text is that text. -/
theorem utf8_roundtrip (cs : List Char) : utf8Lossy (utf8Encode cs) = cs :=
  lossyGo_utf8Encode cs _ (length_le_length_utf8Encode cs)

/-! ### Claim theorems -/

/-- C1: the claim says `resolve("scale", [])` and `resolve("nullIf", [])`
both return the invalid-arguments error and never panic.  The `scale`
arm does guard against an empty list, but the `nullIf` arm indexes
`args[0]` on an empty argument vector and panics, so the claim fails on
the code at `resolve("nullIf", Some([]))`. -/
theorem nullIf_empty_args_panics :
    tryFrom ⟨"nullIf", some []⟩ = .panic "index out of bounds" ∧
    tryFrom ⟨"scale", some []⟩ = .err (.InvalidFunctionArguments "scale") ∧
    tryFrom ⟨"scale", none⟩ = .err (.InvalidFunctionArguments "scale") ∧
    tryFrom ⟨"nullIf", none⟩ = .err (.InvalidFunctionArguments "nullIf") :=
  ⟨rfl, rfl, rfl, rfl⟩

/-- C2 counterexample: `resolve("integer", [integer 1])` succeeds with
the `Integer` filter instead of returning the invalid-arguments error
the claim requires for a non-empty argument list on a zero-arity name. -/
theorem zero_arity_extra_args_cex :
    tryFrom ⟨"integer", some [.arg (.integer 1)]⟩ = .ok .Integer ∧
    tryFrom ⟨"integer", some [.arg (.integer 1)]⟩ ≠
      .err (.InvalidFunctionArguments "integer") :=
  ⟨rfl, by decide⟩

/-- C2 (amended): for every zero-arity filter name the resolver ignores
the argument list entirely — any arguments, including a non-empty list,
still resolve to the corresponding filter variant. -/
theorem zero_arity_args_ignored (args : Option (List FunctionArgument)) :
    tryFrom ⟨"integer", args⟩ = .ok .Integer ∧
    tryFrom ⟨"integerExt", args⟩ = .ok .IntegerExt ∧
    tryFrom ⟨"number", args⟩ = .ok .Number ∧
    tryFrom ⟨"numberExt", args⟩ = .ok .NumberExt ∧
    tryFrom ⟨"lowercase", args⟩ = .ok .Lowercase ∧
    tryFrom ⟨"uppercase", args⟩ = .ok .Uppercase ∧
    tryFrom ⟨"json", args⟩ = .ok .Json :=
  ⟨rfl, rfl, rfl, rfl, rfl, rfl, rfl⟩

/-- C3: a NaN product in the `Scale` arm is an unrecoverable fault (the
panic path), never the recoverable `FailedToApplyFilter` error, and
when the product is not NaN the fault branch is unreachable — for both
integer and float inputs. -/
theorem scale_nan_is_fault_not_error (factor : F64) (i : ℤ) (f : F64) :
    ((apply_filter (.integer i) (.Scale factor)).isPanic = true ↔
      (F64.mul (F64.ofInt i) factor).isNan = true) ∧
    ((apply_filter (.float f) (.Scale factor)).isPanic = true ↔
      (F64.mul f factor).isNan = true) ∧
    (apply_filter (.integer i) (.Scale factor)).isErr = false ∧
    (apply_filter (.float f) (.Scale factor)).isErr = false := by
  refine ⟨?_, ?_, ?_, ?_⟩
  · cases h : (F64.mul (F64.ofInt i) factor).isNan <;>
      simp [apply_filter, h, RunResult.isPanic]
  · cases h : (F64.mul f factor).isNan <;>
      simp [apply_filter, h, RunResult.isPanic]
  · cases h : (F64.mul (F64.ofInt i) factor).isNan <;>
      simp [apply_filter, h, RunResult.isErr]
  · cases h : (F64.mul f factor).isNan <;>
      simp [apply_filter, h, RunResult.isErr]

/-- C4: `NullIf(s)` on a byte string returns null exactly when the
value's canonical rendering equals the sentinel, and otherwise returns
the original value unchanged; every non-byte-string input fails with
the generic filter-failure error. -/
theorem nullIf_filter_semantics (s : String) (b : List ℕ) (v : Value) :
    apply_filter (.bytes b) (.NullIf s) =
      (if Value.toString (.bytes b) = s then .ok .null else .ok (.bytes b)) ∧
    (v.isBytes = false →
      apply_filter v (.NullIf s) = .err (.FailedToApplyFilter "NullIf" v.toString)) ∧
    apply_filter (.bytes (strBytes "-")) (.NullIf "-") = .ok .null ∧
    apply_filter (.bytes (strBytes "x")) (.NullIf "-") = .ok (.bytes (strBytes "x")) := by
  refine ⟨rfl, ?_, rfl, rfl⟩
  cases v with
  | bytes b2 => intro h; exact absurd h (by simp [Value.isBytes])
  | integer i => intro _; rfl
  | float f => intro _; rfl
  | boolean x => intro _; rfl
  | null => intro _; rfl
  | array vs => intro _; rfl
  | object fs => intro _; rfl

/-- C4 witness: the non-byte-string clause instantiated at an integer
input. -/
theorem nullIf_filter_semantics_witness :
    apply_filter (.integer 7) (.NullIf "-") =
      .err (.FailedToApplyFilter "NullIf" (Value.toString (.integer 7))) :=
  (nullIf_filter_semantics "-" [] (.integer 7)).2.1 rfl

/-- C5: the `Integer` filter parses a byte string with the strict base-10
signed 64-bit grammar after lossy text decoding (which never rejects, so
the filter never faults on a byte string): "42" parses to 42, "42.5" is
a filter failure, and every non-byte-string input fails with the
filter-failure error. -/
theorem integer_filter_semantics (v : Value) (b : List ℕ) :
    apply_filter (.bytes (strBytes "42")) .Integer = .ok (.integer 42) ∧
    apply_filter (.bytes (strBytes "42.5")) .Integer =
      .err (.FailedToApplyFilter "Integer" "42.5") ∧
    apply_filter (.integer 42) .Integer = .err (.FailedToApplyFilter "Integer" "42") ∧
    (v.isBytes = false →
      apply_filter v .Integer = .err (.FailedToApplyFilter "Integer" v.toString)) ∧
    (apply_filter (.bytes b) .Integer).isPanic = false := by
  refine ⟨rfl, rfl, rfl, ?_, ?_⟩
  · cases v with
    | bytes b2 => intro h; exact absurd h (by simp [Value.isBytes])
    | integer i => intro _; rfl
    | float f => intro _; rfl
    | boolean x => intro _; rfl
    | null => intro _; rfl
    | array vs => intro _; rfl
    | object fs => intro _; rfl
  · cases h : parseI64 (utf8Lossy b) <;> simp [apply_filter, h, RunResult.isPanic]

/-- C5 witness: the non-byte-string clause instantiated at the null
value, together with the never-panics clause at a concrete byte string. -/
theorem integer_filter_semantics_witness :
    apply_filter .null .Integer = .err (.FailedToApplyFilter "Integer" (Value.toString .null)) :=
  (integer_filter_semantics .null []).2.2.2.1 rfl

/-- C6: `IntegerExt` parses the byte string as a float first and then
truncates toward zero: "42.9" yields integer 42, and any byte string
whose text parses as a float succeeds with the coerced integer — there
is no separate range error. -/
theorem integerExt_truncates_toward_zero (b : List ℕ) (f : F64) :
    apply_filter (.bytes (strBytes "42.9")) .IntegerExt = .ok (.integer 42) ∧
    (parseF64 (utf8Lossy b) = some f →
      apply_filter (.bytes b) .IntegerExt = .ok (.integer (f64AsI64 f))) := by
  refine ⟨rfl, ?_⟩
  intro h
  simp [apply_filter, h]

/-- C6 witness: the parse clause instantiated at the byte string "99.5",
which parses to the rational 199/2 and truncates to 99. -/
theorem integerExt_truncates_toward_zero_witness :
    apply_filter (.bytes (strBytes "99.5")) .IntegerExt =
      .ok (.integer (f64AsI64 (.finite (mkRat 199 2)))) :=
  (integerExt_truncates_toward_zero (strBytes "99.5") (.finite (mkRat 199 2))).2 (by decide)

/-- C7: `Number` and `NumberExt` behave identically on every input —
each result is the other with only the filter name in the error
replaced. -/
theorem number_numberExt_agree (v : Value) :
    apply_filter v .NumberExt = renameErr "NumberExt" (apply_filter v .Number) ∧
    apply_filter v .Number = renameErr "Number" (apply_filter v .NumberExt) := by
  cases v with
  | bytes b =>
    cases h : parseF64 (utf8Lossy b) <;>
      simp [apply_filter, renameErr, h, GrokFilter.toString]
  | integer i => exact ⟨rfl, rfl⟩
  | float f => exact ⟨rfl, rfl⟩
  | boolean x => exact ⟨rfl, rfl⟩
  | null => exact ⟨rfl, rfl⟩
  | array vs => exact ⟨rfl, rfl⟩
  | object fs => exact ⟨rfl, rfl⟩

/-- C8: `Scale(factor)` accepts exactly integer and float inputs and
returns the product as a float (integers are promoted first); every
other input variant fails with the filter-failure error.  The non-NaN
hypotheses mark the panic path settled separately in C3. -/
theorem scale_filter_semantics (factor : F64) (i : ℤ) (f : F64) (v : Value) :
    ((F64.mul (F64.ofInt i) factor).isNan = false →
      apply_filter (.integer i) (.Scale factor) =
        .ok (.float (F64.mul (F64.ofInt i) factor))) ∧
    ((F64.mul f factor).isNan = false →
      apply_filter (.float f) (.Scale factor) = .ok (.float (F64.mul f factor))) ∧
    (v.isNumeric = false →
      apply_filter v (.Scale factor) = .err (.FailedToApplyFilter "Scale" v.toString)) ∧
    apply_filter (.integer 21) (.Scale (.finite 2)) = .ok (.float (.finite 42)) ∧
    apply_filter (.float (.finite 3)) (.Scale (.finite (mkRat 1 2))) =
      .ok (.float (.finite (mkRat 3 2))) := by
  refine ⟨?_, ?_, ?_, rfl, rfl⟩
  · intro h; simp [apply_filter, h]
  · intro h; simp [apply_filter, h]
  · cases v with
    | bytes b2 => intro _; rfl
    | integer j => intro h; exact absurd h (by simp [Value.isNumeric])
    | float g => intro h; exact absurd h (by simp [Value.isNumeric])
    | boolean x => intro _; rfl
    | null => intro _; rfl
    | array vs => intro _; rfl
    | object fs => intro _; rfl

/-- C8 witness: the integer clause at `21 * 2`, the float clause at
`3 * 1/2` and the failure clause at the null value. -/
theorem scale_filter_semantics_witness :
    apply_filter (.integer 21) (.Scale (.finite 2)) =
      .ok (.float (F64.mul (F64.ofInt 21) (.finite 2))) ∧
    apply_filter (.float (.finite 3)) (.Scale (.finite (mkRat 1 2))) =
      .ok (.float (F64.mul (.finite 3) (.finite (mkRat 1 2)))) ∧
    apply_filter .null (.Scale (.finite 2)) =
      .err (.FailedToApplyFilter "Scale" (Value.toString .null)) :=
  ⟨(scale_filter_semantics (.finite 2) 21 (.finite 3) .null).1 (by decide),
   (scale_filter_semantics (.finite (mkRat 1 2)) 21 (.finite 3) .null).2.1 (by decide),
   (scale_filter_semantics (.finite 2) 21 (.finite 3) .null).2.2.1 rfl⟩

/-- C9: the case filters are idempotent on their own output — whenever
`Lowercase` (resp. `Uppercase`) succeeds on a byte string, applying the
same filter to the result returns it unchanged. -/
theorem case_filters_idempotent (b : List ℕ) (w : Value) :
    (apply_filter (.bytes b) .Lowercase = .ok w → apply_filter w .Lowercase = .ok w) ∧
    (apply_filter (.bytes b) .Uppercase = .ok w → apply_filter w .Uppercase = .ok w) := by
  have hmapL : ∀ l : List Char, (l.map charLower).map charLower = l.map charLower := by
    intro l
    induction l with
    | nil => rfl
    | cons a t ih => simp [List.map, charLower_idem a, ih]
  have hmapU : ∀ l : List Char, (l.map charUpper).map charUpper = l.map charUpper := by
    intro l
    induction l with
    | nil => rfl
    | cons a t ih => simp [List.map, charUpper_idem a, ih]
  constructor
  · intro h
    have h2 : RunResult.ok (.bytes (utf8Encode ((utf8Lossy b).map charLower))) = .ok w := h
    injection h2 with h3
    subst h3
    show RunResult.ok
        (.bytes (utf8Encode ((utf8Lossy (utf8Encode ((utf8Lossy b).map charLower))).map
          charLower))) = _
    rw [utf8_roundtrip, hmapL]
  · intro h
    have h2 : RunResult.ok (.bytes (utf8Encode ((utf8Lossy b).map charUpper))) = .ok w := h
    injection h2 with h3
    subst h3
    show RunResult.ok
        (.bytes (utf8Encode ((utf8Lossy (utf8Encode ((utf8Lossy b).map charUpper))).map
          charUpper))) = _
    rw [utf8_roundtrip, hmapU]

/-- C9 witness: lowercasing "AbC" gives "abc", and lowercasing "abc"
again is the identity; likewise for uppercasing. -/
theorem case_filters_idempotent_witness :
    apply_filter (.bytes (strBytes "abc")) .Lowercase = .ok (.bytes (strBytes "abc")) ∧
    apply_filter (.bytes (strBytes "ABC")) .Uppercase = .ok (.bytes (strBytes "ABC")) :=
  ⟨(case_filters_idempotent (strBytes "AbC") (.bytes (strBytes "abc"))).1 rfl,
   (case_filters_idempotent (strBytes "aBc") (.bytes (strBytes "ABC"))).2 rfl⟩

set_option maxRecDepth 100000 in
/-- C10: `IntegerExt` never fails once the text parses as a float, and
the float-to-integer coercion is the saturating cast: "1e300" yields
`i64::MAX`, "-1e300" yields `i64::MIN`, and "NaN" yields 0. -/
theorem integerExt_saturating_cast (b : List ℕ) (f : F64) :
    (parseF64 (utf8Lossy b) = some f →
      (apply_filter (.bytes b) .IntegerExt).isErr = false) ∧
    apply_filter (.bytes (strBytes "1e300")) .IntegerExt = .ok (.integer (2 ^ 63 - 1)) ∧
    apply_filter (.bytes (strBytes "-1e300")) .IntegerExt = .ok (.integer (-(2 ^ 63))) ∧
    apply_filter (.bytes (strBytes "NaN")) .IntegerExt = .ok (.integer 0) := by
  refine ⟨?_, rfl, rfl, rfl⟩
  intro h
  simp [apply_filter, h, RunResult.isErr]

/-- C10 witness: the never-fails clause instantiated at the byte string
"2.5". -/
theorem integerExt_saturating_cast_witness :
    (apply_filter (.bytes (strBytes "2.5")) .IntegerExt).isErr = false :=
  (integerExt_saturating_cast (strBytes "2.5") (.finite (mkRat 5 2))).1 (by decide)

end Grok
